import Mathlib

/-!
Verification of the durable store-and-forward queue of the iNasas
field-telemetry firmware.

The repository contains three Arduino programs sharing one design:

* `Modular_sensores_SD.ino`, first program ("v3"): two-file queue
  (`pendient.csv` / `enviado.csv`), float-based CSV codec,
  `leerPrimeraLinea` / `moverPrimeraLineaAEnviados` / `reintentarPendientes`.
* `Modular_sensores_SD.ino`, second program ("v2 optimizada"): two-file
  queue with a header line, string-field CSV codec
  (`guardarMedicion` / `leerLineaN` / `eliminarPrimeraLinea` /
  `marcarComoEnviado` / `reintentarPendientes`), a RAM counter
  `contadorMediciones`.
* `SD_HTTP_SIM800.ino`: single-file queue (`datos.csv`) with a trailing
  `PENDIENTE` / `ENVIADO` status column and `reintentarEnviosPendientes`.

The embedding models SD files at line granularity: a file is an optional
list of stored lines, where a stored line is the character sequence between
newline characters.  Arduino `println` writes `"\r\n"`, so a stored line
produced by `println s` is `s ++ ['\r']`.  All queue operations of the
programs preserve the invariant that file contents are a concatenation of
newline-terminated lines, so line counting (`contarLineas` counts `'\n'`
characters) coincides with list length.  The cellular transport is
abstracted as an oracle returning whether the HTTP response contained an
acknowledgment (`"200"`/`"OK"`).
-/

namespace INasas

/-- A stored line: the characters of one file line, excluding the
terminating newline character (a trailing carriage return written by
`println` is part of the stored line). -/
abbrev Linea := List Char

/-- An SD file: `none` when the file does not exist. -/
abbrev Archivo := Option (List Linea)

/-- Digit character for a value below ten (mirrors the decimal printing
performed by `Print::print(unsigned long)`). -/
def digitChar (n : Nat) : Char := Char.ofNat (48 + n)

/-- Fuel-based accumulator loop producing the decimal digits of `n`, most
significant first.  `n + 1` units of fuel always suffice since `n / 10 < n`
for `n ≥ 10`. -/
def natDigitsGo : Nat → Nat → List Char → List Char
  | 0, _, acc => acc
  | fuel + 1, n, acc =>
    if n < 10 then digitChar n :: acc
    else natDigitsGo fuel (n / 10) (digitChar (n % 10) :: acc)

/-- Decimal digit string of a natural number, as printed by Arduino
`print` for integer arguments in `guardarMedicion` (`archivo.print(contadorMediciones)`,
`archivo.print(millis())`). -/
def natDigits (n : Nat) : List Char := natDigitsGo (n + 1) n []

/-- Measurement record of the v2 program: the five sensor/system field
strings passed to `guardarMedicion` and re-extracted by the drain
(`temp`, `cond`, `bat`, `volt`, `cob`); each may contain `|`-separated
sub-values. -/
structure Medicion where
  temp : List Char
  cond : List Char
  bat : List Char
  volt : List Char
  cob : List Char
deriving DecidableEq, Repr

/-- CSV payload written by `guardarMedicion` (v2 program, lines 1210-1223
of the combined file): `ID;Timestamp;Temp;Cond;Bat;Volt;Cob`, joined with
single `';'` characters.  `println` then appends `"\r\n"`. -/
def lineaCSV (id ts : Nat) (m : Medicion) : List Char :=
  natDigits id ++ (';' :: (natDigits ts ++ (';' :: (m.temp ++ (';' :: (m.cond
    ++ (';' :: (m.bat ++ (';' :: (m.volt ++ (';' :: m.cob)))))))))))

/-- Raw split of a character list at `';'` (chunks between separators,
empty chunks included). -/
def splitSemi : List Char → List (List Char)
  | [] => [[]]
  | c :: cs =>
    if c = ';' then [] :: splitSemi cs
    else
      match splitSemi cs with
      | [] => [[c]]
      | t :: ts => (c :: t) :: ts

/-- Token sequence of `strtok(line, ";")`: maximal non-empty runs between
`';'` separators.  `strtok` never yields empty tokens — consecutive,
leading and trailing separators are skipped. -/
def tokens (l : List Char) : List (List Char) :=
  (splitSemi l).filter (fun t => !t.isEmpty)

/-- Outcome of parsing one pending line in the v2 drain
(`reintentarPendientes`, combined-file lines 1300-1321): missing ID or
Timestamp token makes the loop `break` (`stop`); missing field tokens make
it discard the line (`corrupt`); otherwise the five field strings are
extracted. -/
inductive ParseRes where
  | stop : ParseRes
  | corrupt : ParseRes
  | registro : Medicion → ParseRes
deriving DecidableEq, Repr

/-- Line parser of the v2 drain, built on `strtok`. -/
def parseLinea (l : Linea) : ParseRes :=
  match tokens l with
  | [] => .stop
  | [_] => .stop
  | _ :: _ :: resto =>
    match resto with
    | t :: c :: b :: v :: o :: _ => .registro ⟨t, c, b, v, o⟩
    | _ => .corrupt

/-- Decoder induced by the drain's parser: the record when the line
parses, `none` on either failure mode. -/
def decodeLinea (l : Linea) : Option Medicion :=
  match parseLinea l with
  | .registro m => some m
  | _ => none

/-- Predicate used for the round-trip theorem: a field is non-empty and
free of the reserved delimiter `';'`. -/
def campoBueno (f : List Char) : Bool :=
  !f.isEmpty && f.all (fun c => !(c == ';'))

/-- All five fields of a record are non-empty and delimiter-free. -/
def camposBuenos (m : Medicion) : Bool :=
  campoBueno m.temp && campoBueno m.cond && campoBueno m.bat
    && campoBueno m.volt && campoBueno m.cob

/-- A record whose field values contain neither the delimiter `';'` nor a
newline (the hypothesis of the round-trip claim as stated in the spec). -/
def camposSinDelim (m : Medicion) : Bool :=
  [m.temp, m.cond, m.bat, m.volt, m.cob].all
    (fun f => f.all (fun c => !(c == ';' || c == '\n')))

/-- Record all of whose fields are delimiter-free, but whose first field
is empty. -/
def medCampoVacio : Medicion :=
  ⟨[], ['c'], ['b'], ['v'], ['o']⟩

/-- State of the SD volume as used by the two-file queue code: the files
`pendient.csv`, `enviado.csv` and the scratch file `temp.tmp`. -/
structure SDSt where
  pendient : Archivo
  enviado : Archivo
  tmp : Archivo
deriving DecidableEq, Repr

/-- Effect of `archivo.println(s)` after `SD.open(..., FILE_WRITE)`:
`FILE_WRITE` creates the file when absent and positions at the end, and
`println` writes `s` followed by `"\r\n"`, so one stored line `s ++ ['\r']`
is appended. -/
def printlnAppend (f : Archivo) (s : Linea) : List Linea :=
  f.getD [] ++ [s ++ ['\r']]

/-- Model of `contarLineas` (v2 program, combined-file lines 1076-1089):
counts `'\n'` characters; an unopenable file counts as zero.  On the line
model this is the number of stored lines. -/
def contarLineas (f : Archivo) : Nat := (f.getD []).length

/-- Model of `leerLineaN` (v2 program, combined-file lines 1095-1124):
copies line `n` into a 120-byte buffer, so at most 119 characters are
returned; `false` (here `none`) when the file cannot be opened or has no
line `n`. -/
def leerLineaN (f : Archivo) (n : Nat) : Option Linea :=
  ((f.getD []).get? n).map (List.take 119)

/-- Model of `eliminarPrimeraLinea` (v2 program, combined-file lines
1130-1176): copies everything after the first newline of `pendient.csv`
into `temp.tmp` (opened with `FILE_WRITE`, hence appending to any stale
content), removes `pendient.csv`, copies `temp.tmp` back into a fresh
`pendient.csv`, and removes `temp.tmp`.  Fails (`none`) when the source
file cannot be opened. -/
def eliminarPrimeraLinea (st : SDSt) : Option SDSt :=
  match st.pendient with
  | none => none
  | some ls =>
    some { pendient := some (st.tmp.getD [] ++ ls.tail),
           enviado := st.enviado, tmp := none }

/-- Model of `marcarComoEnviado` (v2 program, combined-file lines
1243-1266): appends the given line to `enviado.csv`, then removes the
first line of `pendient.csv`; returns `false` when the removal failed
(the record is then left both in `pendient` and in `enviado`). -/
def marcarComoEnviado (st : SDSt) (linea : Linea) : SDSt × Bool :=
  let st1 : SDSt := { st with enviado := some (printlnAppend st.enviado linea) }
  match eliminarPrimeraLinea st1 with
  | some st2 => (st2, true)
  | none => (st1, false)

/-- Model of `guardarMedicion` (v2 program, combined-file lines
1196-1232): appends one CSV line `ID;Timestamp;Temp;Cond;Bat;Volt;Cob` to
`pendient.csv` (opened with `FILE_WRITE`, i.e. append mode). -/
def guardarMedicion (st : SDSt) (id ts : Nat) (m : Medicion) : SDSt :=
  { st with pendient := some (printlnAppend st.pendient (lineaCSV id ts m)) }

/-- Strip the trailing carriage returns of a stored line, recovering the
CSV payload that was handed to `println` (promotions re-write a read line
with `println`, which adds one `'\r'` per copy). -/
def stripCR (l : Linea) : Linea :=
  (l.reverse.dropWhile (fun c => c == '\r')).reverse

/-- A list of stored lines holds the record with payload `p`. -/
def recContains (ls : List Linea) (p : Linea) : Bool :=
  ls.any (fun l => stripCR l == p)

/-- A file holds the record with payload `p`. -/
def contieneReg (f : Archivo) (p : Linea) : Bool :=
  recContains (f.getD []) p

/-- Number of copies of the record with payload `p` stored in a list of
lines. -/
def cuentaReg (ls : List Linea) (p : Linea) : Nat :=
  (ls.filter (fun l => stripCR l == p)).length

/-- Byte-level effect of `guardarMedicion` (v2 program) on the content of
`pendient.csv`: the sequence of `print(...)` calls followed by
`println(cob)` writes exactly the CSV payload plus `"\r\n"` after the
existing bytes. -/
def guardarMedicionContenido (contenido : List Char) (id ts : Nat) (m : Medicion) : List Char :=
  contenido ++ (lineaCSV id ts m ++ ['\r', '\n'])

/-- Byte-level effect of `guardarEnSD` (v3 program, combined-file lines
445-462) on the content of `pendient.csv`: `println(linea)` after
`generarLineaCSV` writes the prepared line plus `"\r\n"` after the
existing bytes. -/
def guardarEnSDContenido (contenido : List Char) (linea : Linea) : List Char :=
  contenido ++ (linea ++ ['\r', '\n'])

/-- Line written by `guardarDatosSD` (`SD_HTTP_SIM800.ino`, lines 105-140):
the same seven fields plus the trailing status column `PENDIENTE`. -/
def lineaDatosSD (id ts : Nat) (m : Medicion) : List Char :=
  lineaCSV id ts m ++ (';' :: ['P', 'E', 'N', 'D', 'I', 'E', 'N', 'T', 'E'])

/-- Byte-level effect of `guardarDatosSD` (`SD_HTTP_SIM800.ino`) on the
content of `datos.csv`. -/
def guardarDatosSDContenido (contenido : List Char) (id ts : Nat) (m : Medicion) : List Char :=
  contenido ++ (lineaDatosSD id ts m ++ ['\r', '\n'])

/-- Header payload written into a fresh `pendient.csv` by `setup` of the
v2 program (combined-file lines 1590-1597). -/
def cabecera : Linea :=
  "ID;Timestamp;Temperatura;Conductividad;Bateria;Voltaje;Cobertura".toList

/-- Freshly initialized state: `setup` creates `pendient.csv` and
`enviado.csv`, each holding only the header line. -/
def estadoInicial : SDSt :=
  { pendient := some (printlnAppend none cabecera),
    enviado := some (printlnAppend none cabecera),
    tmp := none }

/-- Appending a sequence of measurements with `guardarMedicion`. -/
def appendMediciones (st : SDSt) (rs : List (Nat × Nat × Medicion)) : SDSt :=
  rs.foldl (fun s r => guardarMedicion s r.1 r.2.1 r.2.2) st

/-- Bound `MAX_REINTENTOS`: maximum records attempted per cycle. -/
def MAX_REINTENTOS : Nat := 3

/-- One entry of a drain trace: a corrupt line was discarded, a line was
transmitted and acknowledged, or a transmission failed. -/
inductive Intento where
  | descarte : Linea → Intento
  | exito : Linea → Intento
  | fallo : Linea → Intento
deriving DecidableEq, Repr

/-- Whether a trace entry is a failed transmission. -/
def esFallo : Intento → Bool
  | .fallo _ => true
  | _ => false

/-- Loop body of the v2 `reintentarPendientes`: while `intentos` is below
both `MAX_REINTENTOS` and the initial pending count, read line 0, parse it
(`break` on a missing ID or Timestamp token, discard-and-continue on
missing field tokens), transmit through the oracle, and on acknowledgment
re-read line 0 and `marcarComoEnviado` it; on a failed transmission the
loop breaks.  The fuel is the number of remaining loop iterations,
`min MAX_REINTENTOS pendientes` at entry. -/
def reintentarLoop (oracle : Medicion → Bool) : Nat → SDSt → SDSt × List Intento
  | 0, st => (st, [])
  | fuel + 1, st =>
    match leerLineaN st.pendient 0 with
    | none => (st, [])
    | some l =>
      match parseLinea l with
      | .stop => (st, [])
      | .corrupt =>
        let st1 :=
          match eliminarPrimeraLinea st with
          | some s => s
          | none => st
        let r := reintentarLoop oracle fuel st1
        (r.1, .descarte l :: r.2)
      | .registro m =>
        if oracle m then
          let st1 := (marcarComoEnviado st l).1
          let r := reintentarLoop oracle fuel st1
          (r.1, .exito l :: r.2)
        else
          (st, [.fallo l])

/-- Model of `reintentarPendientes` (v2 program, combined-file lines
1274-1345): early return when no lines are pending, otherwise the bounded
drain loop. -/
def reintentarPendientes (oracle : Medicion → Bool) (st : SDSt) : SDSt × List Intento :=
  if contarLineas st.pendient = 0 then (st, [])
  else reintentarLoop oracle (min MAX_REINTENTOS (contarLineas st.pendient)) st

/-- Status column written by `guardarDatosSD`. -/
def estadoPendiente : List Char := ['P', 'E', 'N', 'D', 'I', 'E', 'N', 'T', 'E']

/-- Substring search: whether `pat` occurs inside `l`. -/
def buscaSub : List Char → List Char → Bool
  | pat, [] => pat.isEmpty
  | pat, c :: resto => pat.isPrefixOf (c :: resto) || buscaSub pat resto

/-- Check `linea.indexOf("PENDIENTE") > 0` of `reintentarEnviosPendientes`:
the status marker occurs at a position strictly greater than zero. -/
def lineaPendiente (l : List Char) : Bool :=
  buscaSub estadoPendiente l.tail && !(estadoPendiente.isPrefixOf l)

/-- Model of `reintentarEnviosPendientes` (`SD_HTTP_SIM800.ino`, lines
230-294): scans `datos.csv` line by line while fewer than `MAX_REINTENTOS`
attempts were made; every line whose status is `PENDIENTE` is attempted
through the oracle; the scan continues after a failed attempt (there is
no `break` on failure).  The result is the trace of attempted lines with
their outcomes. -/
def reintentarEnviosPendientes (oracle : List Char → Bool) :
    List (List Char) → Nat → List (List Char × Bool)
  | [], _ => []
  | l :: ls, intentos =>
    if MAX_REINTENTOS ≤ intentos then []
    else if lineaPendiente l then
      (l, oracle l) :: reintentarEnviosPendientes oracle ls (intentos + 1)
    else
      reintentarEnviosPendientes oracle ls intentos

/-- Two concrete pending `datos.csv` lines, first of a pair. -/
def lineaPend1 : List Char := "1;100;25.0;100.0;90;4000;20;PENDIENTE".toList

/-- Second concrete pending `datos.csv` line. -/
def lineaPend2 : List Char := "2;200;26.0;101.0;91;4001;21;PENDIENTE".toList

/-- A concrete malformed stored line with a single token: `strtok` finds
no second token, so the v2 drain breaks instead of discarding. -/
def lineaSinCampos : Linea := "registroquebrado".toList

/-- A concrete malformed stored line with an ID and a Timestamp token but
too few fields (three tokens in total). -/
def lineaCorta : Linea := "9;100;rota\r".toList

/-- A concrete well-formed stored line (`println` carriage return
included). -/
def lineaBuena : Linea := "7;500;25.0;100.0;90;4000;20\r".toList

/-- The record carried by `lineaBuena` (note the carriage return read
back into the last field by `leerLineaN`). -/
def regBuena : Medicion :=
  ⟨"25.0".toList, "100.0".toList, "90".toList, "4000".toList, "20\r".toList⟩

/-- Intermediate storage states of one promotion of the head record, in
execution order: initial state; after the `println` into `enviado.csv`;
after the tail of `pendient.csv` was appended to `temp.tmp`; after
`SD.remove(pendient.csv)`; after `temp.tmp` was copied back into a fresh
`pendient.csv`; after `SD.remove(temp.tmp)`.  A power loss inside the
promotion leaves the volume in one of these states. -/
def pasosPromocion (st : SDSt) (r : Linea) (resto : List Linea) : List SDSt :=
  let l := r.take 119
  let s1 : SDSt := { st with enviado := some (printlnAppend st.enviado l) }
  let s2 : SDSt := { s1 with tmp := some (st.tmp.getD [] ++ resto) }
  let s3 : SDSt := { s2 with pendient := none }
  let s4 : SDSt := { s3 with pendient := some (st.tmp.getD [] ++ resto) }
  let s5 : SDSt := { s4 with tmp := none }
  [st, s1, s2, s3, s4, s5]

/-- Re-running the promotion after recovery: when `pendient.csv` still has
a first line, the next acknowledged drain pass runs `marcarComoEnviado`
on it (append the read line to `enviado.csv`, then remove the first
pending line through `temp.tmp`); with no pending line the drain does
nothing. -/
def rePromocion (st : SDSt) : SDSt :=
  match st.pendient with
  | some (h :: t) =>
    { pendient := some (st.tmp.getD [] ++ t),
      enviado := some (printlnAppend st.enviado (h.take 119)),
      tmp := none }
  | _ => st

/-- The record with payload `p` is present in `pendient` or in `enviado`. -/
def alMenosUno (st : SDSt) (p : Linea) : Bool :=
  contieneReg st.pendient p || contieneReg st.enviado p

/-- The record with payload `p` is present in exactly one of `pendient`
and `enviado`. -/
def exactoUno (st : SDSt) (p : Linea) : Bool :=
  contieneReg st.pendient p != contieneReg st.enviado p

/-- A concrete well-formed stored record line. -/
def lineaReg : Linea := "5;77;25.0;100.0;90;4000;20\r".toList

/-- Concrete interrupted-promotion state: `lineaReg` heads `pendient.csv`
and one copy of it (with the extra carriage return added by the earlier
`println`) is already in `enviado.csv`. -/
def estadoInterrumpido : SDSt :=
  ⟨some [lineaReg], some [lineaReg ++ ['\r']], none⟩

/-- Immediate-send bookkeeping of the v2 `loop` (combined-file lines
1761-1773): when both the HTTP send (`enviado`) and the SD store
(`guardado`) succeeded, and `contarLineas(pendient.csv) > 1`, the loop
reads the **last** pending line and runs `marcarComoEnviado` on it (which
appends that line to `enviado.csv` and removes the **first** pending
line); otherwise nothing happens. -/
def inmediataStep (st : SDSt) (guardado enviado : Bool) : SDSt :=
  if enviado && guardado then
    if 1 < contarLineas st.pendient then
      match leerLineaN st.pendient (contarLineas st.pendient - 1) with
      | some l => (marcarComoEnviado st l).1
      | none => st
    else st
  else st

/-- Concrete older backlog line. -/
def lineaVieja : Linea := "3;50;20.0;90.0;80;3900;15\r".toList

/-- Concrete just-appended line. -/
def lineaNueva : Linea := "4;60;21.0;95.0;85;3950;18\r".toList

/-- Concrete state with the header, one older backlog record and the
just-appended record in `pendient.csv`. -/
def estadoConBacklog : SDSt :=
  ⟨some [cabecera ++ ['\r'], lineaVieja, lineaNueva], some [], none⟩

/-- Model of `leerPrimeraLinea` (v3 program, combined-file lines 653-667):
copies the first line into a 150-byte buffer, stopping at the first `'\n'`
or `'\r'` or after 149 characters; returns `false` (`none`) when the file
cannot be opened or the extracted payload is empty (`return (i > 0)`). -/
def leerPrimeraLinea (f : Archivo) : Option Linea :=
  match f.getD [] with
  | [] => none
  | l :: _ =>
    let p := (l.takeWhile (fun c => !(c == '\r' || c == '\n'))).take 149
    if p.isEmpty then none else some p

/-- Model of `moverPrimeraLineaAEnviados` (v3 program, combined-file lines
676-719): reads the first pending payload, appends it to `enviado.csv`
with `println`, copies everything after the first newline of
`pendient.csv` into `temp.tmp` (opened in append mode), removes
`pendient.csv` and renames `temp.tmp` onto it. -/
def moverPrimeraLineaAEnviados (st : SDSt) : Option SDSt :=
  match leerPrimeraLinea st.pendient, st.pendient with
  | some p, some ls =>
    some { pendient := some (st.tmp.getD [] ++ ls.tail),
           enviado := some (printlnAppend st.enviado p),
           tmp := none }
  | _, _ => none

/-- Up to `k` successful promotions as performed by the v3
`reintentarPendientes` when every transmission is acknowledged: each step
reads the first pending payload and runs `moverPrimeraLineaAEnviados`;
the trace collects the payloads in promotion order. -/
def promocionesV3 : Nat → SDSt → SDSt × List Linea
  | 0, st => (st, [])
  | k + 1, st =>
    match leerPrimeraLinea st.pendient, moverPrimeraLineaAEnviados st with
    | some p, some st2 =>
      let r := promocionesV3 k st2
      (r.1, p :: r.2)
    | _, _ => (st, [])

/-- Model of `reintentarPendientes` (v3 program, combined-file lines
727-786): while fewer than `MAX_REINTENTOS` retries were made and a first
pending line can be read, transmit it through the oracle; on
acknowledgment run `moverPrimeraLineaAEnviados` (result ignored) and
continue; on failure `break`.  The fuel is the remaining iteration count,
`MAX_REINTENTOS` at entry. -/
def reintentarPendientesV3 (oracle : Linea → Bool) : Nat → SDSt → SDSt × List (Linea × Bool)
  | 0, st => (st, [])
  | fuel + 1, st =>
    match leerPrimeraLinea st.pendient with
    | none => (st, [])
    | some p =>
      if oracle p then
        let st2 :=
          match moverPrimeraLineaAEnviados st with
          | some s => s
          | none => st
        let r := reintentarPendientesV3 oracle fuel st2
        (r.1, (p, true) :: r.2)
      else (st, [(p, false)])

/-- A stored line as produced by `println` of a non-empty payload at most
149 characters long and free of `'\r'`/`'\n'`: the stored form is the
payload (its `dropLast`) followed by the carriage return. -/
def lineaLimpia (l : Linea) : Bool :=
  (l.getLast? == some '\r') && !l.dropLast.isEmpty
    && l.dropLast.all (fun c => !(c == '\r' || c == '\n'))
    && decide (l.dropLast.length ≤ 149)

/-- Two clean stored lines for the FIFO witness, first of a pair. -/
def lineaFifoA : Linea := "100;20.0;90.0;80;3900;15\r".toList

/-- Second clean stored line for the FIFO witness. -/
def lineaFifoB : Linea := "200;21.0;95.0;85;3950;18\r".toList

/-- Value of `contadorMediciones` after power-on: the RAM initializer of
`unsigned long contadorMediciones = 0;` (v2 program, combined-file line
1032).  The counter is never written to or read from the SD card. -/
def contadorInicial : Nat := 0

/-- Increment `contadorMediciones++` performed once per operating cycle
(v2 program, combined-file line 1750). -/
def cicloContador (c : Nat) : Nat := c + 1

/-- Running `n` cycles from counter value `c`: final counter value and
the list of record IDs assigned (each cycle increments, then uses the
incremented value as the ID). -/
def corridaCiclos : Nat → Nat → Nat × List Nat
  | c, 0 => (c, [])
  | c, n + 1 =>
    let c2 := cicloContador c
    let r := corridaCiclos c2 n
    (r.1, c2 :: r.2)

/-- IDs assigned during one boot session of `n` cycles: the counter is a
RAM variable, so every boot starts from `contadorInicial`. -/
def idsArranque (n : Nat) : List Nat := (corridaCiclos contadorInicial n).2

/-- IDs assigned over the device's lifetime, given the cycle count of
each boot session. -/
def idsVida (arranques : List Nat) : List Nat :=
  (arranques.map idsArranque).flatten

/-!
Auxiliary lemmas.
-/

theorem natDigitsGo_mem :
    ∀ fuel n acc c, c ∈ natDigitsGo fuel n acc →
      (∃ k, k < 10 ∧ c = digitChar k) ∨ c ∈ acc := by
  intro fuel
  induction fuel with
  | zero => intro n acc c hc; exact Or.inr hc
  | succ f ih =>
    intro n acc c hc
    simp only [natDigitsGo] at hc
    split at hc
    · next h =>
      rcases List.mem_cons.mp hc with h1 | h2
      · exact Or.inl ⟨n, h, h1⟩
      · exact Or.inr h2
    · rcases ih _ _ _ hc with h1 | h2
      · exact Or.inl h1
      · rcases List.mem_cons.mp h2 with h3 | h4
        · exact Or.inl ⟨n % 10, Nat.mod_lt _ (by omega), h3⟩
        · exact Or.inr h4

theorem natDigitsGo_ne_nil :
    ∀ fuel n acc, acc ≠ [] → natDigitsGo fuel n acc ≠ [] := by
  intro fuel
  induction fuel with
  | zero => intro n acc h; exact h
  | succ f ih =>
    intro n acc h
    simp only [natDigitsGo]
    split
    · simp
    · exact ih _ _ (by simp)

theorem digitChar_ne_semi : ∀ k, k < 10 → digitChar k ≠ ';' := by decide

theorem natDigits_ne_nil (n : Nat) : natDigits n ≠ [] := by
  simp only [natDigits, natDigitsGo]
  split
  · simp
  · exact natDigitsGo_ne_nil _ _ _ (by simp)

theorem natDigits_no_semi (n : Nat) : ∀ c ∈ natDigits n, c ≠ ';' := by
  intro c hc
  rcases natDigitsGo_mem _ _ _ c hc with ⟨k, hk, rfl⟩ | h2
  · exact digitChar_ne_semi k hk
  · simp at h2

theorem campoBueno_natDigits (n : Nat) : campoBueno (natDigits n) = true := by
  have h1 := natDigits_ne_nil n
  have h2 := natDigits_no_semi n
  simp [campoBueno, List.all_eq_true, List.isEmpty_iff]
  exact ⟨h1, fun c hc => by simpa using h2 c hc⟩

theorem splitSemi_sep (f resto : List Char) (hf : ∀ c ∈ f, c ≠ ';') :
    splitSemi (f ++ ';' :: resto) = f :: splitSemi resto := by
  induction f with
  | nil => simp [splitSemi]
  | cons c cs ih =>
    have hc : c ≠ ';' := hf c (by simp)
    have ih' := ih (fun x hx => hf x (by simp [hx]))
    simp only [List.cons_append, splitSemi, if_neg hc, List.append_eq, ih']

theorem splitSemi_last (f : List Char) (hf : ∀ c ∈ f, c ≠ ';') :
    splitSemi f = [f] := by
  induction f with
  | nil => simp [splitSemi]
  | cons c cs ih =>
    have hc : c ≠ ';' := hf c (by simp)
    have ih' := ih (fun x hx => hf x (by simp [hx]))
    simp only [splitSemi, if_neg hc, ih']

theorem tokens_sep (f resto : List Char) (hf : campoBueno f = true) :
    tokens (f ++ ';' :: resto) = f :: tokens resto := by
  simp only [campoBueno, Bool.and_eq_true, List.all_eq_true] at hf
  obtain ⟨h1, h2⟩ := hf
  have hne : ∀ c ∈ f, c ≠ ';' := fun c hc => by simpa using h2 c hc
  simp only [tokens, splitSemi_sep f resto hne, List.filter_cons]
  have : (!f.isEmpty) = true := h1
  simp [this]

theorem tokens_last (f : List Char) (hf : campoBueno f = true) :
    tokens f = [f] := by
  simp only [campoBueno, Bool.and_eq_true, List.all_eq_true] at hf
  obtain ⟨h1, h2⟩ := hf
  have hne : ∀ c ∈ f, c ≠ ';' := fun c hc => by simpa using h2 c hc
  simp only [tokens, splitSemi_last f hne, List.filter_cons]
  have : (!f.isEmpty) = true := h1
  simp [this]

theorem tokens_lineaCSV (id ts : Nat) (m : Medicion) (hm : camposBuenos m = true) :
    tokens (lineaCSV id ts m) =
      [natDigits id, natDigits ts, m.temp, m.cond, m.bat, m.volt, m.cob] := by
  simp only [camposBuenos, Bool.and_eq_true] at hm
  obtain ⟨⟨⟨⟨h1, h2⟩, h3⟩, h4⟩, h5⟩ := hm
  simp only [lineaCSV]
  rw [tokens_sep _ _ (campoBueno_natDigits id),
      tokens_sep _ _ (campoBueno_natDigits ts),
      tokens_sep _ _ h1, tokens_sep _ _ h2, tokens_sep _ _ h3,
      tokens_sep _ _ h4, tokens_last _ h5]

theorem stripCR_append_cr (l : Linea) : stripCR (l ++ ['\r']) = stripCR l := by
  simp [stripCR, List.dropWhile]

theorem recContains_append (a b : List Linea) (p : Linea) :
    recContains (a ++ b) p = (recContains a p || recContains b p) := by
  simp [recContains]

theorem recContains_tail (a : List Linea) (p : Linea)
    (h : recContains a p = false) : recContains a.tail p = false := by
  cases a with
  | nil => simpa using h
  | cons x xs =>
    simp only [recContains, List.any_cons, Bool.or_eq_false_iff] at h
    simpa [recContains] using h.2

theorem recContains_println_self (f : Archivo) (r : Linea) (hlen : r.take 119 = r) :
    recContains (printlnAppend f (r.take 119)) (stripCR r) = true := by
  simp only [printlnAppend, recContains, List.any_append, hlen,
    List.any_cons, List.any_nil, stripCR_append_cr, beq_self_eq_true,
    Bool.or_true, Bool.or_false]

theorem recContains_println_mono (f : Archivo) (l p : Linea)
    (h : recContains (f.getD []) p = true) :
    recContains (printlnAppend f l) p = true := by
  simp only [printlnAppend, recContains, List.any_append] at h ⊢
  simp [h]

theorem exactoUno_of (st : SDSt) (p : Linea)
    (h1 : contieneReg st.pendient p = false)
    (h2 : contieneReg st.enviado p = true) : exactoUno st p = true := by
  simp [exactoUno, h1, h2]

theorem appendMediciones_pendient (rs : List (Nat × Nat × Medicion)) :
    ∀ (st : SDSt) (ls : List Linea), st.pendient = some ls →
      (appendMediciones st rs).pendient =
        some (ls ++ rs.map (fun r => lineaCSV r.1 r.2.1 r.2.2 ++ ['\r'])) ∧
      (appendMediciones st rs).enviado = st.enviado ∧
      (appendMediciones st rs).tmp = st.tmp := by
  induction rs with
  | nil => intro st ls h; simp [appendMediciones, h]
  | cons r rs ih =>
    intro st ls h
    have hp : (guardarMedicion st r.1 r.2.1 r.2.2).pendient =
        some (ls ++ [lineaCSV r.1 r.2.1 r.2.2 ++ ['\r']]) := by
      simp [guardarMedicion, printlnAppend, h]
    have h2 := ih (guardarMedicion st r.1 r.2.1 r.2.2) _ hp
    simp only [appendMediciones, List.foldl_cons] at h2 ⊢
    simpa [guardarMedicion, List.append_assoc] using h2

theorem reintentarLoop_succ (oracle : Medicion → Bool) (fuel : Nat) (st : SDSt) :
    reintentarLoop oracle (fuel + 1) st =
      match leerLineaN st.pendient 0 with
      | none => (st, [])
      | some l =>
        match parseLinea l with
        | .stop => (st, [])
        | .corrupt =>
          let st1 :=
            match eliminarPrimeraLinea st with
            | some s => s
            | none => st
          let r := reintentarLoop oracle fuel st1
          (r.1, .descarte l :: r.2)
        | .registro m =>
          if oracle m then
            let st1 := (marcarComoEnviado st l).1
            let r := reintentarLoop oracle fuel st1
            (r.1, .exito l :: r.2)
          else
            (st, [.fallo l]) := rfl

theorem reintentarLoop_len (oracle : Medicion → Bool) :
    ∀ fuel st, (reintentarLoop oracle fuel st).2.length ≤ fuel := by
  intro fuel
  induction fuel with
  | zero => intro st; simp [reintentarLoop]
  | succ f ih =>
    intro st
    rw [reintentarLoop]
    rcases h1 : leerLineaN st.pendient 0 with - | l
    · simp
    · simp only [h1]
      rcases h2 : parseLinea l with - | - | m
      · simp [h2]
      · simp only [h2, List.length_cons]
        exact Nat.succ_le_succ (ih _)
      · rcases h3 : oracle m with - | -
        · simp [h2, h3]
        · simp only [h2, h3, if_true, List.length_cons]
          exact Nat.succ_le_succ (ih _)

theorem reintentarLoop_fallo_final (oracle : Medicion → Bool) :
    ∀ fuel st, (reintentarLoop oracle fuel st).2.dropLast.all (fun a => !esFallo a) = true := by
  intro fuel
  induction fuel with
  | zero => intro st; simp [reintentarLoop]
  | succ f ih =>
    intro st
    rw [reintentarLoop]
    rcases h1 : leerLineaN st.pendient 0 with - | l
    · simp
    · simp only [h1]
      rcases h2 : parseLinea l with - | - | m
      · simp [h2]
      · simp only [h2]
        rcases h4 : (reintentarLoop oracle f
            (match eliminarPrimeraLinea st with | some s => s | none => st)).2 with - | ⟨a, resto⟩
        · simp [h4]
        · have := ih (match eliminarPrimeraLinea st with | some s => s | none => st)
          rw [h4] at this
          simp only [h4, List.dropLast_cons_of_ne_nil (List.cons_ne_nil a resto),
            List.all_cons, this, Bool.and_true]
          simp [esFallo]
      · simp only [h2]
        rcases h3 : oracle m with - | -
        · simp [h3]
        · simp only [h3, if_true]
          rcases h4 : (reintentarLoop oracle f (marcarComoEnviado st l).1).2 with - | ⟨a, resto⟩
          · simp [h4]
          · have := ih (marcarComoEnviado st l).1
            rw [h4] at this
            simp only [h4,
              List.dropLast_cons_of_ne_nil (List.cons_ne_nil a resto),
              List.all_cons, this, Bool.and_true]
            simp [esFallo]

theorem reintentarEnviosPendientes_len (oracle : List Char → Bool) :
    ∀ ls intentos, (reintentarEnviosPendientes oracle ls intentos).length + intentos ≤
      MAX_REINTENTOS ∨ (reintentarEnviosPendientes oracle ls intentos).length = 0 := by
  intro ls
  induction ls with
  | nil => intro n; right; simp [reintentarEnviosPendientes]
  | cons l ls ih =>
    intro n
    rw [reintentarEnviosPendientes]
    rcases Nat.lt_or_ge n MAX_REINTENTOS with h | h
    · rw [if_neg (by omega)]
      rcases h2 : lineaPendiente l with - | -
      · simpa [h2] using ih n
      · simp only [h2, if_true, List.length_cons]
        rcases ih (n + 1) with h3 | h3
        · left; omega
        · left; rw [h3]; omega
    · rw [if_pos h]; right; simp

theorem reintentarPendientesV3_len (oracle : Linea → Bool) :
    ∀ fuel st, (reintentarPendientesV3 oracle fuel st).2.length ≤ fuel := by
  intro fuel
  induction fuel with
  | zero => intro st; simp [reintentarPendientesV3]
  | succ f ih =>
    intro st
    rw [reintentarPendientesV3]
    rcases h1 : leerPrimeraLinea st.pendient with - | p
    · simp
    · simp only [h1]
      rcases h2 : oracle p with - | -
      · simp [h2]
      · simp only [h2, if_true, List.length_cons]
        exact Nat.succ_le_succ (ih _)

theorem reintentarPendientesV3_fallo_final (oracle : Linea → Bool) :
    ∀ fuel st, (reintentarPendientesV3 oracle fuel st).2.dropLast.all
      (fun a => a.2) = true := by
  intro fuel
  induction fuel with
  | zero => intro st; simp [reintentarPendientesV3]
  | succ f ih =>
    intro st
    rw [reintentarPendientesV3]
    rcases h1 : leerPrimeraLinea st.pendient with - | p
    · simp
    · simp only [h1]
      rcases h2 : oracle p with - | -
      · simp [h2]
      · simp only [h2, if_true]
        rcases h4 : (reintentarPendientesV3 oracle f
            (match moverPrimeraLineaAEnviados st with | some s => s | none => st)).2 with - | ⟨a, resto⟩
        · simp [h4]
        · have := ih (match moverPrimeraLineaAEnviados st with | some s => s | none => st)
          rw [h4] at this
          simp only [h4, List.dropLast_cons_of_ne_nil (List.cons_ne_nil a resto),
            List.all_cons, this, Bool.and_true]

theorem takeWhile_payload (q : List Char)
    (hq : ∀ c ∈ q, (c == '\r' || c == '\n') = false) :
    (q ++ ['\r']).takeWhile (fun c => !(c == '\r' || c == '\n')) = q := by
  induction q with
  | nil => simp [List.takeWhile]
  | cons c cs ih =>
    have hc := hq c (by simp)
    have ih' := ih (fun x hx => hq x (by simp [hx]))
    simp only [List.cons_append, List.takeWhile_cons, hc, Bool.not_false,
      if_true, ih']

theorem take_of_len_le (q : List Char) (n : Nat) (h : q.length ≤ n) :
    q.take n = q := List.take_of_length_le h

theorem lineaLimpia_spec (l : Linea) (h : lineaLimpia l = true) :
    l = l.dropLast ++ ['\r'] ∧ l.dropLast ≠ [] ∧ l.dropLast.length ≤ 149 ∧
      ∀ c ∈ l.dropLast, (c == '\r' || c == '\n') = false := by
  simp only [lineaLimpia, Bool.and_eq_true, beq_iff_eq, Bool.not_eq_true',
    decide_eq_true_eq, List.all_eq_true] at h
  obtain ⟨⟨⟨hlast, hne⟩, hall⟩, hlen⟩ := h
  have hne' : l.dropLast ≠ [] := by
    intro hnil; rw [hnil] at hne; simp at hne
  have hlne : l ≠ [] := by
    intro hnil; rw [hnil] at hlast; simp at hlast
  have hdecomp : l.dropLast ++ [l.getLast hlne] = l :=
    List.dropLast_append_getLast hlne
  have hgl : l.getLast hlne = '\r' := by
    have := List.getLast?_eq_getLast l hlne
    rw [hlast] at this
    exact (Option.some_injective _ this).symm
  refine ⟨?_, hne', hlen, hall⟩
  conv_lhs => rw [← hdecomp]
  rw [hgl]

theorem leerPrimeraLinea_limpia (a : Linea) (rest : List Linea)
    (h : lineaLimpia a = true) :
    leerPrimeraLinea (some (a :: rest)) = some a.dropLast := by
  obtain ⟨hdec, hne, hlen, hall⟩ := lineaLimpia_spec a h
  rw [leerPrimeraLinea]
  simp only [Option.getD_some]
  have htw : a.takeWhile (fun c => !(c == '\r' || c == '\n')) = a.dropLast := by
    conv_lhs => rw [hdec]
    exact takeWhile_payload _ hall
  rw [htw, take_of_len_le _ _ hlen]
  simp [List.isEmpty_iff, hne]

theorem corridaCiclos_mem :
    ∀ n c x, x ∈ (corridaCiclos c n).2 → c < x := by
  intro n
  induction n with
  | zero => intro c x hx; simp [corridaCiclos] at hx
  | succ n ih =>
    intro c x hx
    simp only [corridaCiclos, List.mem_cons] at hx
    rcases hx with rfl | hx
    · exact Nat.lt_succ_self c
    · exact Nat.lt_trans (Nat.lt_succ_self c) (ih (cicloContador c) x hx)

theorem corridaCiclos_pairwise :
    ∀ n c, ((corridaCiclos c n).2).Pairwise (· < ·) := by
  intro n
  induction n with
  | zero => intro c; simp [corridaCiclos]
  | succ n ih =>
    intro c
    simp only [corridaCiclos]
    exact List.Pairwise.cons (fun x hx => corridaCiclos_mem n (cicloContador c) x hx)
      (ih (cicloContador c))

/-!
Claim theorems.
-/

/-- Claim C1: crash safety of one promotion of the head record.  For every
state whose pending log heads with record `r` (read back whole by the
120-byte buffer, and occurring neither in the rest of the pending log nor
in stale `temp.tmp` content), the record is present in at least one of
`pendient`/`enviado` at every intermediate state of the promotion, and
after recovery plus re-running the promotion it is present in exactly one
of the two logs. -/
theorem c1_promocion_segura (st : SDSt) (r : Linea) (resto : List Linea)
    (hp : st.pendient = some (r :: resto)) (hlen : r.take 119 = r)
    (hresto : recContains resto (stripCR r) = false)
    (htmp : recContains (st.tmp.getD []) (stripCR r) = false) :
    (pasosPromocion st r resto).all (fun s => alMenosUno s (stripCR r)) = true ∧
      (pasosPromocion st r resto).all
        (fun s => exactoUno (rePromocion s) (stripCR r)) = true := by
  obtain ⟨pe, en, tm⟩ := st
  simp only at hp htmp
  subst hp
  have hpr : recContains (r :: resto) (stripCR r) = true := by
    simp [recContains]
  have henv : ∀ f : Archivo,
      recContains (printlnAppend f (r.take 119)) (stripCR r) = true :=
    fun f => recContains_println_self f r hlen
  have hTR : recContains (tm.getD [] ++ resto) (stripCR r) = false := by
    rw [recContains_append, htmp, hresto]; rfl
  have htail : recContains (tm.getD [] ++ resto).tail (stripCR r) = false :=
    recContains_tail _ _ hTR
  constructor
  · simp only [pasosPromocion, List.all_cons, List.all_nil, Bool.and_true,
      Bool.and_eq_true, alMenosUno, Bool.or_eq_true, contieneReg,
      Option.getD_some]
    exact ⟨Or.inl hpr, Or.inl hpr, Or.inl hpr,
      Or.inr (henv _), Or.inr (henv _), Or.inr (henv _)⟩
  · simp only [pasosPromocion, List.all_cons, List.all_nil, Bool.and_true,
      Bool.and_eq_true]
    refine ⟨?_, ?_, ?_, ?_, ?_, ?_⟩
    · refine exactoUno_of _ _ ?_ ?_
      · simpa [rePromocion, contieneReg] using hTR
      · simpa [rePromocion, contieneReg] using henv en
    · refine exactoUno_of _ _ ?_ ?_
      · simpa [rePromocion, contieneReg] using hTR
      · simpa [rePromocion, contieneReg] using
          recContains_println_mono (some (printlnAppend en (r.take 119))) (r.take 119)
            (stripCR r) (by simpa using henv en)
    · refine exactoUno_of _ _ ?_ ?_
      · have : recContains ((tm.getD [] ++ resto) ++ resto) (stripCR r) = false := by
          rw [recContains_append, hTR, hresto]; rfl
        simpa [rePromocion, contieneReg] using this
      · simpa [rePromocion, contieneReg] using
          recContains_println_mono (some (printlnAppend en (r.take 119))) (r.take 119)
            (stripCR r) (by simpa using henv en)
    · refine exactoUno_of _ _ ?_ ?_
      · simp [rePromocion, contieneReg, recContains]
      · simpa [rePromocion, contieneReg] using henv en
    · rcases hc : tm.getD [] ++ resto with - | ⟨h1, t1⟩
      · refine exactoUno_of _ _ ?_ ?_
        · simp [rePromocion, hc, contieneReg, recContains]
        · simpa [rePromocion, hc, contieneReg] using henv en
      · have ht1 : recContains t1 (stripCR r) = false := by
          have := htail; rwa [hc] at this
        refine exactoUno_of _ _ ?_ ?_
        · have : recContains ((tm.getD [] ++ resto) ++ t1) (stripCR r) = false := by
            rw [recContains_append, hTR, ht1]; rfl
          rw [hc] at this
          simpa [rePromocion, hc, contieneReg] using this
        · simpa [rePromocion, hc, contieneReg] using
            recContains_println_mono (some (printlnAppend en (r.take 119))) (h1.take 119)
              (stripCR r) (by simpa using henv en)
    · rcases hc : tm.getD [] ++ resto with - | ⟨h1, t1⟩
      · refine exactoUno_of _ _ ?_ ?_
        · simp [rePromocion, hc, contieneReg, recContains]
        · simpa [rePromocion, hc, contieneReg] using henv en
      · have ht1 : recContains t1 (stripCR r) = false := by
          have := htail; rwa [hc] at this
        refine exactoUno_of _ _ ?_ ?_
        · simpa [rePromocion, hc, contieneReg] using ht1
        · simpa [rePromocion, hc, contieneReg] using
            recContains_println_mono (some (printlnAppend en (r.take 119))) (h1.take 119)
              (stripCR r) (by simpa using henv en)

/-- Witness for C1: the crash-safety theorem applied at a concrete
two-record pending log. -/
theorem c1_promocion_segura_testigo :
    (⟨some [lineaVieja, lineaNueva], some [], none⟩ : SDSt).pendient =
        some (lineaVieja :: [lineaNueva]) ∧
      ((pasosPromocion ⟨some [lineaVieja, lineaNueva], some [], none⟩ lineaVieja
          [lineaNueva]).all
        (fun s => alMenosUno s (stripCR lineaVieja)) = true ∧
      (pasosPromocion ⟨some [lineaVieja, lineaNueva], some [], none⟩ lineaVieja
          [lineaNueva]).all
        (fun s => exactoUno (rePromocion s) (stripCR lineaVieja)) = true) :=
  ⟨rfl, c1_promocion_segura ⟨some [lineaVieja, lineaNueva], some [], none⟩
    lineaVieja [lineaNueva] rfl (by decide) (by decide) (by decide)⟩

/-- Claim C2: appending a measurement line leaves every byte of the
previously stored content unchanged and only adds the encoded line plus
the line terminator at the end; this holds for `guardarMedicion`
(v2 `pendient.csv`), for `guardarEnSD` (v3 `pendient.csv`) and for
`guardarDatosSD` (`SD_HTTP_SIM800` `datos.csv`), all of which open their
file in `FILE_WRITE` (append) mode and never truncate or rewrite existing
content. -/
theorem c2_append_preserva (contenido : List Char) (id ts : Nat)
    (m : Medicion) (linea : Linea) :
    ((guardarMedicionContenido contenido id ts m).take contenido.length = contenido ∧
      (guardarMedicionContenido contenido id ts m).drop contenido.length =
        lineaCSV id ts m ++ ['\r', '\n']) ∧
    ((guardarEnSDContenido contenido linea).take contenido.length = contenido ∧
      (guardarEnSDContenido contenido linea).drop contenido.length =
        linea ++ ['\r', '\n']) ∧
    ((guardarDatosSDContenido contenido id ts m).take contenido.length = contenido ∧
      (guardarDatosSDContenido contenido id ts m).drop contenido.length =
        lineaDatosSD id ts m ++ ['\r', '\n']) := by
  refine ⟨⟨?_, ?_⟩, ⟨?_, ?_⟩, ⟨?_, ?_⟩⟩
  · exact List.take_left contenido _
  · exact List.drop_left contenido _
  · exact List.take_left contenido _
  · exact List.drop_left contenido _
  · exact List.take_left contenido _
  · exact List.drop_left contenido _

/-- Claim C3, counterexample: the record `⟨"", "c", "b", "v", "o"⟩` has
fields containing neither `';'` nor a newline, yet decoding its encoded
line does not return the record: `strtok` collapses the empty field, the
parser sees only six tokens and reports a corrupt line (`none`). -/
theorem c3_contraejemplo :
    camposSinDelim medCampoVacio = true ∧
      decodeLinea (lineaCSV 1 2 medCampoVacio) ≠ some medCampoVacio := by
  constructor
  · decide
  · decide

/-- Claim C3 (amended): for every record whose five field values are
non-empty and contain no `';'`, decoding the CSV line written by
`guardarMedicion` with the `strtok`-based parser of `reintentarPendientes`
yields the record again: `decodeLinea (lineaCSV id ts m) = some m`. -/
theorem c3_roundtrip (id ts : Nat) (m : Medicion)
    (hm : camposBuenos m = true) :
    decodeLinea (lineaCSV id ts m) = some m := by
  cases m with
  | mk t c b v o =>
    unfold decodeLinea parseLinea
    rw [tokens_lineaCSV _ _ _ hm]

/-- Witness for C3: the round-trip theorem applied at a concrete record. -/
theorem c3_roundtrip_testigo :
    camposBuenos ⟨['2', '5'], ['1', '0', '0'], ['9', '0'], ['4', '0'], ['2', '0']⟩ = true ∧
      decodeLinea (lineaCSV 3 45 ⟨['2', '5'], ['1', '0', '0'], ['9', '0'], ['4', '0'], ['2', '0']⟩) =
        some ⟨['2', '5'], ['1', '0', '0'], ['9', '0'], ['4', '0'], ['2', '0']⟩ :=
  ⟨by decide, c3_roundtrip 3 45 _ (by decide)⟩

/-- Claim C4 (amended): every drain is bounded by `MAX_REINTENTOS = 3`
attempts per cycle; the two `Modular_sensores_SD` drains (`reintentarPendientes`
of v2 and of v3) additionally stop at the first failed transmission (a
failed attempt can only be the last entry of their traces), but
`reintentarEnviosPendientes` of `SD_HTTP_SIM800.ino` keeps attempting
further pending records after a failure, up to the attempt bound. -/
theorem c4_reintentos_acotados (oracle : Medicion → Bool)
    (oracleV3 : Linea → Bool) (oracleH : List Char → Bool)
    (st st3 : SDSt) (ls : List (List Char)) :
    ((reintentarPendientes oracle st).2.length ≤ MAX_REINTENTOS ∧
      (reintentarPendientes oracle st).2.dropLast.all (fun a => !esFallo a) = true) ∧
    ((reintentarPendientesV3 oracleV3 MAX_REINTENTOS st3).2.length ≤ MAX_REINTENTOS ∧
      (reintentarPendientesV3 oracleV3 MAX_REINTENTOS st3).2.dropLast.all
        (fun a => a.2) = true) ∧
    (reintentarEnviosPendientes oracleH ls 0).length ≤ MAX_REINTENTOS := by
  refine ⟨⟨?_, ?_⟩, ⟨?_, ?_⟩, ?_⟩
  · rw [reintentarPendientes]
    split
    · simp
    · exact Nat.le_trans (reintentarLoop_len oracle _ _) (Nat.min_le_left _ _)
  · rw [reintentarPendientes]
    split
    · simp
    · exact reintentarLoop_fallo_final oracle _ _
  · exact reintentarPendientesV3_len oracleV3 _ _
  · exact reintentarPendientesV3_fallo_final oracleV3 _ _
  · rcases reintentarEnviosPendientes_len oracleH ls 0 with h | h
    · omega
    · omega

/-- Claim C4, counterexample: with a transport that never acknowledges,
`reintentarEnviosPendientes` attempts a second pending record after the
first attempt already failed — the drain of `SD_HTTP_SIM800.ino` does not
stop at the first `TransportFailure`. -/
theorem c4_contraejemplo :
    reintentarEnviosPendientes (fun _ => false) [lineaPend1, lineaPend2] 0 =
        [(lineaPend1, false), (lineaPend2, false)] ∧
      ¬((reintentarEnviosPendientes (fun _ => false) [lineaPend1, lineaPend2] 0).dropLast.all
          (fun a => !(a.2 == false)) = true) := by
  constructor
  · decide
  · decide

/-- Claim C5: FIFO drainage.  For every pending log whose stored lines
are clean `println` lines, `k` acknowledged promotions by the v3 code
promote exactly the first `k` payloads in the order they were appended:
the trace is `(ls.take k).map dropLast`, the pending log is left with
`ls.drop k`, and `enviado.csv` receives the same payloads in the same
order. -/
theorem c5_fifo (k : Nat) :
    ∀ (st : SDSt) (ls es : List Linea),
      st.pendient = some ls → st.tmp = none → st.enviado = some es →
      ls.all lineaLimpia = true →
      (promocionesV3 k st).2 = (ls.take k).map List.dropLast ∧
        (promocionesV3 k st).1.pendient = some (ls.drop k) ∧
        (promocionesV3 k st).1.enviado =
          some (es ++ (ls.take k).map (fun l => l.dropLast ++ ['\r'])) := by
  induction k with
  | zero =>
    intro st ls es hp ht he _
    simp [promocionesV3, hp, he]
  | succ k ih =>
    intro st ls es hp ht he hall
    obtain ⟨pe, en, tm⟩ := st
    simp only at hp ht he
    subst hp; subst ht; subst he
    cases ls with
    | nil =>
      rw [promocionesV3]
      simp [leerPrimeraLinea]
    | cons a t =>
      simp only [List.all_cons, Bool.and_eq_true] at hall
      obtain ⟨ha, hta⟩ := hall
      have hread := leerPrimeraLinea_limpia a t ha
      have hmov : moverPrimeraLineaAEnviados ⟨some (a :: t), some es, none⟩ =
          some ⟨some t, some (printlnAppend (some es) a.dropLast), none⟩ := by
        rw [moverPrimeraLineaAEnviados]
        simp [hread]
      have hrec := ih ⟨some t, some (printlnAppend (some es) a.dropLast), none⟩
        t (es ++ [a.dropLast ++ ['\r']]) rfl rfl (by simp [printlnAppend]) hta
      rw [promocionesV3]
      simp only [hread, hmov]
      refine ⟨?_, ?_, ?_⟩
      · simp only [hrec.1, List.take_succ_cons, List.map_cons]
      · simp only [hrec.2.1, List.drop_succ_cons]
      · rw [hrec.2.2]
        simp [List.take_succ_cons, List.append_assoc]

/-- Witness for C5: two promotions on a concrete two-line pending log
leave the payloads promoted in append order and the pending log empty. -/
theorem c5_fifo_testigo :
    [lineaFifoA, lineaFifoB].all lineaLimpia = true ∧
      (promocionesV3 2 ⟨some [lineaFifoA, lineaFifoB], some [], none⟩).2 =
          ([lineaFifoA, lineaFifoB].take 2).map List.dropLast ∧
        (promocionesV3 2 ⟨some [lineaFifoA, lineaFifoB], some [], none⟩).1.pendient =
          some ([lineaFifoA, lineaFifoB].drop 2) ∧
        (promocionesV3 2 ⟨some [lineaFifoA, lineaFifoB], some [], none⟩).1.enviado =
          some ([] ++ ([lineaFifoA, lineaFifoB].take 2).map (fun l => l.dropLast ++ ['\r'])) :=
  ⟨by decide, c5_fifo 2 ⟨some [lineaFifoA, lineaFifoB], some [], none⟩
    [lineaFifoA, lineaFifoB] [] rfl rfl rfl (by decide)⟩

/-- Claim C6 (amended): within one boot session the assigned record IDs
are strictly increasing and therefore unique; but `contadorMediciones` is
a RAM variable reset by every reboot, so IDs repeat across boots. -/
theorem c6_ids_por_arranque (n : Nat) :
    (idsArranque n).Pairwise (· < ·) ∧ (idsArranque n).Nodup := by
  have hp := corridaCiclos_pairwise n contadorInicial
  exact ⟨hp, hp.imp (fun h => Nat.ne_of_lt h)⟩

/-- Claim C6, counterexample: two boot sessions of one cycle each assign
the same ID twice — the lifetime ID sequence is not duplicate-free, so
IDs are not unique across reboots (the counter is not persisted). -/
theorem c6_contraejemplo : ¬(idsVida [1, 1]).Nodup := by decide

/-- Claim C7 (amended): from an interrupted-promotion state — the record
still heads `pendient.csv` and one copy of it is already in
`enviado.csv` — the next promotion attempt for that record appends it to
the sent log a second time (there is no presence check): re-running the
promotion leaves two copies of the record in `enviado` and removes it
from `pendient`. -/
theorem c7_reapend (st : SDSt) (r : Linea) (resto : List Linea) (s0 : List Linea)
    (hp : st.pendient = some (r :: resto)) (he : st.enviado = some s0)
    (hlen : r.take 119 = r)
    (hresto : recContains resto (stripCR r) = false)
    (htmp : recContains (st.tmp.getD []) (stripCR r) = false) :
    cuentaReg ((rePromocion st).enviado.getD []) (stripCR r) =
        cuentaReg s0 (stripCR r) + 1 ∧
      contieneReg (rePromocion st).pendient (stripCR r) = false := by
  rw [rePromocion, hp]
  constructor
  · simp only [printlnAppend, he, Option.getD_some, cuentaReg, List.filter_append,
      List.length_append, hlen]
    have : stripCR (r ++ ['\r']) == stripCR r := by
      simp [stripCR_append_cr]
    simp [this]
  · simp only [contieneReg, Option.getD_some, recContains_append]
    simp [recContains_append] at hresto htmp ⊢
    exact ⟨htmp, hresto⟩

/-- Claim C7, counterexample: re-running the drain on a concrete
interrupted-promotion state leaves two copies of the record in the sent
log, not at most one. -/
theorem c7_contraejemplo :
    cuentaReg ((reintentarPendientes (fun _ => true) estadoInterrumpido).1.enviado.getD [])
        (stripCR lineaReg) = 2 ∧
      ¬(cuentaReg ((reintentarPendientes (fun _ => true) estadoInterrumpido).1.enviado.getD [])
          (stripCR lineaReg) ≤ 1) := by
  constructor
  · decide
  · decide

/-- Witness for C7: the amended theorem applied at the concrete
interrupted-promotion state. -/
theorem c7_reapend_testigo :
    estadoInterrumpido.pendient = some (lineaReg :: []) ∧
      cuentaReg ((rePromocion estadoInterrumpido).enviado.getD []) (stripCR lineaReg) =
          cuentaReg [lineaReg ++ ['\r']] (stripCR lineaReg) + 1 ∧
        contieneReg (rePromocion estadoInterrumpido).pendient (stripCR lineaReg) = false := by
  refine ⟨rfl, ?_⟩
  exact c7_reapend estadoInterrumpido lineaReg [] [lineaReg ++ ['\r']]
    rfl rfl (by decide) (by decide) (by decide)

/-- Claim C8 (amended): the v2 controller promotes in the immediate-send
step exactly when the send and the store succeeded and
`contarLineas(pendient.csv) > 1` — regardless of remaining backlog; the
promotion appends the last pending line to `enviado.csv` and removes the
first pending line.  With `contarLineas ≤ 1`, or a failed send or store,
nothing is promoted. -/
theorem c8_inmediata (st : SDSt) (ls : List Linea) (hp : st.pendient = some ls) :
    (1 < ls.length →
        inmediataStep st true true =
          ⟨some (st.tmp.getD [] ++ ls.tail),
            some (printlnAppend st.enviado ((ls.getLast?.getD []).take 119)),
            none⟩) ∧
      (ls.length ≤ 1 → inmediataStep st true true = st) ∧
      (∀ g, inmediataStep st g false = st) ∧
      (∀ e, inmediataStep st false e = st) := by
  obtain ⟨pe, en, tm⟩ := st
  simp only at hp
  subst hp
  refine ⟨?_, ?_, ?_, ?_⟩
  · intro h
    rcases hlast : ls.getLast? with - | x
    · rw [List.getLast?_eq_none_iff] at hlast
      rw [hlast] at h; simp at h
    have hget : ls[ls.length - 1]? = some x := by
      rw [← List.getLast?_eq_getElem?, hlast]
    have hcount : contarLineas (some ls) = ls.length := rfl
    have hread : leerLineaN (some ls) (ls.length - 1) = some (x.take 119) := by
      simp only [leerLineaN, Option.getD_some, List.get?_eq_getElem?, hget,
        Option.map_some']
    rw [inmediataStep]
    simp only [Bool.and_self, if_true, hcount, if_pos h, hread]
    simp only [marcarComoEnviado, eliminarPrimeraLinea]
    simp [hlast]
  · intro h
    rw [inmediataStep]
    have hcount : contarLineas (some ls : Archivo) = ls.length := rfl
    simp [hcount, Nat.not_lt.mpr h]
  · intro g; simp [inmediataStep]
  · intro e; simp [inmediataStep]

/-- Claim C8, counterexample: with older backlog remaining
(`contarLineas = 3 ≠ 1`), the immediate-send step after an acknowledged
send does promote — `enviado.csv` changes (it gains the new record's
line) — contradicting that promotion happens only when the just-appended
record is the sole pending line; the new record is meanwhile still
present in `pendient.csv`. -/
theorem c8_contraejemplo :
    contarLineas estadoConBacklog.pendient = 3 ∧
      (inmediataStep estadoConBacklog true true).enviado ≠ estadoConBacklog.enviado ∧
      contieneReg (inmediataStep estadoConBacklog true true).pendient
        (stripCR lineaNueva) = true := by
  refine ⟨?_, ?_, ?_⟩
  · decide
  · decide
  · decide

/-- Witness for C8: the amended theorem applied at a concrete two-line
pending file. -/
theorem c8_inmediata_testigo :
    (⟨some [lineaVieja, lineaNueva], some [], none⟩ : SDSt).pendient =
        some [lineaVieja, lineaNueva] ∧
      inmediataStep ⟨some [lineaVieja, lineaNueva], some [], none⟩ true true =
        ⟨some (((⟨some [lineaVieja, lineaNueva], some [], none⟩ : SDSt).tmp.getD [])
            ++ [lineaVieja, lineaNueva].tail),
          some (printlnAppend (some [])
            (([lineaVieja, lineaNueva].getLast?.getD []).take 119)),
          none⟩ :=
  ⟨rfl, (c8_inmediata ⟨some [lineaVieja, lineaNueva], some [], none⟩
    [lineaVieja, lineaNueva] rfl).1 (by decide)⟩

/-- Claim C9 (amended): when `pendient.csv` holds a malformed line having
at least an ID and a Timestamp token but fewer than seven fields, followed
by a well-formed record that the transport acknowledges, one drain pass
discards the malformed line (counted as an attempt), transmits and
promotes the well-formed record: `pendient` ends empty and `enviado` gains
the record. -/
theorem c9_linea_corrupta (oracle : Medicion → Bool) (sm sg : Linea)
    (r : Medicion) (e0 : List Linea)
    (hm : sm.take 119 = sm) (hpm : parseLinea sm = .corrupt)
    (hg : sg.take 119 = sg) (hpg : parseLinea sg = .registro r)
    (hor : oracle r = true) :
    reintentarPendientes oracle ⟨some [sm, sg], some e0, none⟩ =
      (⟨some [], some (e0 ++ [sg ++ ['\r']]), none⟩,
        [.descarte sm, .exito sg]) := by
  have h0 : contarLineas ((⟨some [sm, sg], some e0, none⟩ : SDSt).pendient) = 2 := rfl
  rw [reintentarPendientes, h0]
  norm_num [MAX_REINTENTOS]
  have hr1 : leerLineaN (some [sm, sg]) 0 = some sm := by
    simp [leerLineaN, hm]
  have he1 : eliminarPrimeraLinea ⟨some [sm, sg], some e0, none⟩ =
      some ⟨some [sg], some e0, none⟩ := by
    simp [eliminarPrimeraLinea]
  have hr2 : leerLineaN (some [sg]) 0 = some sg := by
    simp [leerLineaN, hg]
  have hmk : marcarComoEnviado ⟨some [sg], some e0, none⟩ sg =
      (⟨some [], some (e0 ++ [sg ++ ['\r']]), none⟩, true) := by
    simp [marcarComoEnviado, eliminarPrimeraLinea, printlnAppend]
  rw [show (2 : Nat) = 1 + 1 from rfl, reintentarLoop_succ]
  simp only [hr1, hpm, he1]
  rw [reintentarLoop_succ]
  simp only [hr2, hpg, hor, if_true, hmk]
  rfl

/-- Claim C9, counterexample: with the malformed line
`"registroquebrado"` (too few fields: a single token) ahead of a
well-formed record and a transport that acknowledges everything, the v2
drain neither discards the malformed line nor promotes the well-formed
record — parsing the head line yields no Timestamp token, the loop breaks,
and the state is returned unchanged. -/
theorem c9_contraejemplo :
    reintentarPendientes (fun _ => true) ⟨some [lineaSinCampos, lineaBuena], some [], none⟩ =
        (⟨some [lineaSinCampos, lineaBuena], some [], none⟩, []) ∧
      contieneReg (reintentarPendientes (fun _ => true)
          ⟨some [lineaSinCampos, lineaBuena], some [], none⟩).1.enviado
        (stripCR lineaBuena) = false := by
  constructor
  · decide
  · decide

/-- Witness for C9: the amended theorem applied at a concrete malformed
line (three tokens) followed by a concrete well-formed record, with an
always-acknowledging transport. -/
theorem c9_linea_corrupta_testigo :
    (lineaCorta.take 119 = lineaCorta ∧ parseLinea lineaCorta = .corrupt ∧
        lineaBuena.take 119 = lineaBuena ∧ parseLinea lineaBuena = .registro regBuena) ∧
      reintentarPendientes (fun _ => true) ⟨some [lineaCorta, lineaBuena], some [], none⟩ =
        (⟨some [], some ([] ++ [lineaBuena ++ ['\r']]), none⟩,
          [.descarte lineaCorta, .exito lineaBuena]) :=
  ⟨⟨by decide, by decide, by decide, by decide⟩,
    c9_linea_corrupta (fun _ => true) lineaCorta lineaBuena regBuena []
      (by decide) (by decide) (by decide) (by decide) rfl⟩

/-- Claim C10: the header line is treated as an ordinary record by the
line-based store operations: for every sequence of appended measurement
records, `contarLineas` on `pendient.csv` reports one more than the number
of appended records, and `leerLineaN` at index 0 returns the header line
(as stored, with its `println` carriage return), not the oldest appended
record. -/
theorem c10_cabecera_cuenta (rs : List (Nat × Nat × Medicion)) :
    contarLineas (appendMediciones estadoInicial rs).pendient = rs.length + 1 ∧
      leerLineaN (appendMediciones estadoInicial rs).pendient 0 =
        some (cabecera ++ ['\r']) := by
  obtain ⟨h1, -, -⟩ :=
    appendMediciones_pendient rs estadoInicial [cabecera ++ ['\r']] rfl
  constructor
  · rw [contarLineas, h1]
    simp [Nat.add_comm]
  · have htake : (cabecera ++ ['\r']).take 119 = cabecera ++ ['\r'] := by decide
    rw [leerLineaN, h1]
    simp [htake]

end INasas
